import Mathlib

/-!
Verification of the Best-Math document/rendering pipeline against its
specification.  The Python source (src/bestmath.py with a near-duplicate
variant src/sourcecode.py) is a PyQt6 application; we shallowly embed the
operations the specification constrains: the page collection
(PagesPanel), cursor-addressed insertion into a rich-text buffer, the
MainWindow insertion operations and the live preview, the graph dialog's
expression evaluation, point parsing, and sampling, and the image
scaling logic.  Qt widget behaviour that the code relies on (list-widget
current-row adjustment on item removal, text-cursor insertion semantics)
is modelled explicitly and documented at each definition.
-/

namespace BestMath

/-- A bitmap with pixel dimensions, as produced by the renderers
(QImage).  The pixel payload is irrelevant to every claim, so only the
dimensions are carried, with a tag to distinguish distinct artifacts. -/
structure QImg where
  w : Nat
  h : Nat
  tag : Nat := 0
deriving DecidableEq, Repr

/-- One piece of rich-text content inside a page buffer: a character of
text, or an embedded bitmap (QTextCursor.insertImage stores the image as
a single object-replacement character in the document). -/
inductive RichItem where
  | chr (c : Char)
  | image (img : QImg)
deriving DecidableEq, Repr

/-- A page's rich-text buffer (one QTextEdit): its content and the
position of the insertion cursor.  The cursor is always within the
buffer, 0 ≤ cursor ≤ buffer.length. -/
structure Editor where
  buffer : List RichItem
  cursor : Nat
deriving DecidableEq, Repr

def Editor.empty : Editor := ⟨[], 0⟩

/-- State of PagesPanel (src/bestmath.py lines 529-579): the page list
entries (names), the editor stack (one buffer per page, same order), and
the current row of the list widget (-1 when the list is empty, as in
Qt).  The stack's current index follows the list's current row through
the currentRowChanged connection (line 548). -/
structure PagesPanel where
  names : List String
  editors : List Editor
  current : Int
deriving DecidableEq, Repr

/-- PagesPanel.add_page (lines 552-561).  The default name is built from
self.page_list.count() + 1, i.e. the page count at call time plus one.
A title that is None or the empty string is falsy in Python, so
"title or f-string" falls back to the default name.  The new page is
appended and made current (setCurrentRow(count - 1)). -/
def addPage (p : PagesPanel) (title : Option String) : PagesPanel :=
  let index := p.names.length + 1
  let name :=
    match title with
    | some t => if t = "" then "Page " ++ toString index else t
    | none => "Page " ++ toString index
  { names := p.names ++ [name]
    editors := p.editors ++ [Editor.empty]
    current := (p.names.length : Int) }

/-- PagesPanel.delete_page (lines 563-573).  No-op when no row is
current or at most one page remains.  Otherwise the current row is
removed from both the list and the stack.  Qt's QListWidget.takeItem
leaves the current row index unchanged when a later item exists (the
next item shifts into the removed slot) and moves it to the new last row
otherwise; the code then explicitly selects row - 1 whenever row > 0. -/
def deletePage (p : PagesPanel) : PagesPanel :=
  if p.current < 0 ∨ p.names.length ≤ 1 then p
  else
    let row := p.current.toNat
    let names' := p.names.eraseIdx row
    let editors' := p.editors.eraseIdx row
    let afterTake : Int :=
      if (row : Int) < (names'.length : Int) then (row : Int) else (names'.length : Int) - 1
    { names := names'
      editors := editors'
      current := if 0 < p.current then p.current - 1 else afterTake }

/-- The user selecting row r in the page list (QListWidget.setCurrentRow
on an existing row; clicks can only hit existing rows). -/
def selectRow (p : PagesPanel) (r : Int) : PagesPanel :=
  if 0 ≤ r ∧ r < (p.names.length : Int) then { p with current := r } else p

/-- The panel as constructed before MainWindow.__init__ adds the first
page: empty list, empty stack, no current row. -/
def emptyPanel : PagesPanel := ⟨[], [], -1⟩

/-- The startup state: MainWindow.__init__ (line 591) immediately calls
add_page() once, so the document starts with one empty page. -/
def initPanel : PagesPanel := addPage emptyPanel none

/-- The page-lifecycle operations reachable from the UI. -/
inductive PanelOp where
  | add (title : Option String)
  | delete
  | select (r : Int)

def PanelOp.apply (p : PagesPanel) : PanelOp → PagesPanel
  | .add t => addPage p t
  | .delete => deletePage p
  | .select r => selectRow p r

/-- Run a sequence of page operations from the startup state. -/
def runPanelOps (ops : List PanelOp) : PagesPanel :=
  ops.foldl PanelOp.apply initPanel

lemma length_eraseIdx_pos {α : Type} :
    ∀ (l : List α) (i : Nat), 2 ≤ l.length → 1 ≤ (l.eraseIdx i).length := by
  intro l i h
  cases l with
  | nil => simp at h
  | cons a t =>
    cases i with
    | zero => simpa using by simpa using h
    | succ j => simp [List.eraseIdx]

lemma one_le_length_apply (p : PagesPanel) (op : PanelOp)
    (h : 1 ≤ p.names.length) : 1 ≤ (op.apply p).names.length := by
  cases op with
  | add t => simp [PanelOp.apply, addPage]
  | delete =>
    by_cases hc : p.current < 0 ∨ p.names.length ≤ 1
    · simpa [PanelOp.apply, deletePage, hc] using h
    · have h2 : 2 ≤ p.names.length := by
        rcases not_or.mp hc with ⟨h1', h2'⟩
        omega
      show 1 ≤ (deletePage p).names.length
      unfold deletePage
      rw [if_neg hc]
      exact length_eraseIdx_pos p.names p.current.toNat h2
  | select r =>
    by_cases hc : 0 ≤ r ∧ r < (p.names.length : Int) <;>
      simpa [PanelOp.apply, selectRow, hc] using h

lemma one_le_length_foldl (ops : List PanelOp) :
    ∀ (p : PagesPanel), 1 ≤ p.names.length →
      1 ≤ (ops.foldl PanelOp.apply p).names.length := by
  induction ops with
  | nil => intro p h; simpa using h
  | cons op rest ih =>
    intro p h
    exact ih (op.apply p) (one_le_length_apply p op h)

/-- Claim C1: every state reachable from the startup state by
add/delete/select operations keeps at least one page, and delete_page on
a collection holding exactly one page leaves the state unchanged (a
no-op, not an error). -/
theorem page_count_never_below_one (ops : List PanelOp) (p : PagesPanel)
    (h : p.names.length = 1) :
    1 ≤ (runPanelOps ops).names.length ∧ deletePage p = p := by
  constructor
  · exact one_le_length_foldl ops initPanel (by decide)
  · unfold deletePage
    rw [if_pos]
    exact Or.inr (by omega)

theorem page_count_never_below_one_witness :
    1 ≤ (runPanelOps [PanelOp.delete, PanelOp.delete]).names.length ∧
      deletePage initPanel = initPanel :=
  page_count_never_below_one [PanelOp.delete, PanelOp.delete] initPanel (by decide)

lemma get?_eraseIdx_of_lt {α : Type} :
    ∀ (l : List α) (i n : Nat), n < i → (l.eraseIdx i)[n]? = l[n]? := by
  intro l
  induction l with
  | nil => intro i n _; simp [List.eraseIdx]
  | cons a t ih =>
    intro i n hn
    cases i with
    | zero => omega
    | succ j =>
      cases n with
      | zero => simp [List.eraseIdx]
      | succ m =>
        simp only [List.eraseIdx, List.getElem?_cons_succ]
        exact ih j m (by omega)

/-- Claim C2: deleting the currently active page from a collection with
more than one page activates the page immediately preceding it in order,
or the first page when the deleted page was first; the choice is the
deterministic value of the function deletePage.  The second conjunct
identifies the new active entry with the old predecessor entry; the
third identifies it, in the first-page case, with the old second entry,
which becomes the first page of the new collection. -/
theorem delete_active_predecessor (p : PagesPanel) (i : Nat)
    (hcur : p.current = (i : Int)) (hgt : 1 < p.names.length) :
    (deletePage p).current = (if 0 < i then (i : Int) - 1 else 0) ∧
    (0 < i → (deletePage p).names[i - 1]? = p.names[i - 1]?) ∧
    (i = 0 → (deletePage p).names[0]? = p.names[1]?) := by
  have hguard : ¬ (p.current < 0 ∨ p.names.length ≤ 1) := by
    push_neg
    constructor
    · rw [hcur]; exact Int.natCast_nonneg i
    · omega
  have hrow : p.current.toNat = i := by rw [hcur]; exact Int.toNat_natCast i
  refine ⟨?_, ?_, ?_⟩
  · unfold deletePage
    rw [if_neg hguard]
    simp only [hrow]
    rw [hcur]
    have hlen : 1 ≤ (p.names.eraseIdx i).length :=
      length_eraseIdx_pos p.names i (by omega)
    split_ifs <;> omega
  · intro hi
    unfold deletePage
    rw [if_neg hguard]
    simp only [hrow]
    exact get?_eraseIdx_of_lt p.names i (i - 1) (by omega)
  · intro hi0
    subst hi0
    unfold deletePage
    rw [if_neg hguard]
    simp only [hrow]
    cases hnames : p.names with
    | nil => rw [hnames] at hgt; simp at hgt
    | cons a t => simp [List.eraseIdx]

theorem delete_active_predecessor_witness :
    (deletePage (addPage initPanel none)).current = (if 0 < 1 then ((1 : Nat) : Int) - 1 else 0) ∧
    (0 < 1 → (deletePage (addPage initPanel none)).names[1 - 1]? = (addPage initPanel none).names[1 - 1]?) ∧
    (1 = 0 → (deletePage (addPage initPanel none)).names[0]? = (addPage initPanel none).names[1]?) :=
  delete_active_predecessor (addPage initPanel none) 1 (by decide) (by decide)

/-- Claim C5 fails on the code: the default page-name counter is not a
lifetime creation counter — add_page computes the number from the
current page count (line 553), so numbers are reused after a deletion.
Starting from the startup page, creating two more pages (three created
in total) and deleting one leaves two pages, and the next default-named
page is "Page 3", not "Page 4". -/
theorem default_name_after_delete_is_page_three :
    (addPage (deletePage (addPage (addPage initPanel none) none)) none).names.getLast?
        = some "Page 3" ∧
      (addPage (deletePage (addPage (addPage initPanel none) none)) none).names.getLast?
        ≠ some "Page 4" := by
  constructor
  · decide
  · decide

/-- Claim C5 amended: a page created without an explicit name receives
the synthesized name "Page N" where N is the page count at creation time
plus one (numbers are therefore reused after deletions); the page is
appended with an empty buffer and made active. -/
theorem default_name_is_count_succ (p : PagesPanel) :
    (addPage p none).names.getLast? = some ("Page " ++ toString (p.names.length + 1)) ∧
    (addPage p none).names.length = p.names.length + 1 ∧
    (addPage p none).editors.getLast? = some Editor.empty ∧
    (addPage p none).current = (p.names.length : Int) := by
  refine ⟨?_, by simp [addPage], ?_, rfl⟩
  · simp [addPage]
  · simp [addPage]

/-- Insertion of an element at position n of a list, the effect of a
QTextCursor positioned at character index n inserting one item: the
prefix is kept, the item placed, the suffix shifted.  (Cursors satisfy
n ≤ length; the out-of-range case appends, as Qt clamps cursors to the
document end.) -/
def listInsertAt {α : Type} : Nat → α → List α → List α
  | 0, a, l => a :: l
  | _ + 1, a, [] => [a]
  | n + 1, a, b :: l => b :: listInsertAt n a l

/-- QTextCursor.insertImage through the cursor obtained from
textCursor(): the image becomes one buffer item at the cursor position
and the editor's cursor advances directly past the inserted content (Qt
keeps cursors at the insertion position behind inserted text by
default). -/
def Editor.insertImage (e : Editor) (img : QImg) : Editor :=
  { buffer := listInsertAt e.cursor (RichItem.image img) e.buffer
    cursor := e.cursor + 1 }

/-- Serialization of one buffer item to the markup form QTextEdit.toHtml
produces: a text character verbatim, an embedded image as an img
element.  The exact markup Qt emits is opaque; the claims only need that
it is a function of the buffer alone. -/
def RichItem.html : RichItem → String
  | .chr c => String.mk [c]
  | .image img =>
      "<img " ++ toString img.w ++ "x" ++ toString img.h ++ "#" ++ toString img.tag ++ ">"

/-- QTextEdit.toHtml: wholesale serialization of the buffer. -/
def Editor.toHtml (e : Editor) : String := String.join (e.buffer.map RichItem.html)

/-- MainWindow state (src/bestmath.py lines 582-611): the pages panel
and the content of the read-only preview pane. -/
structure MainWindow where
  panel : PagesPanel
  preview : String
deriving DecidableEq, Repr

/-- PagesPanel.current_editor (lines 575-579): the widget at the stack's
current index, which tracks the list's current row; none when the index
is invalid (current_editor then raises RuntimeError). -/
def PagesPanel.currentEditor (p : PagesPanel) : Option Editor :=
  if 0 ≤ p.current then p.editors[p.current.toNat]? else none

/-- MainWindow._update_preview (lines 888-889): replace the preview
wholesale with the serialization of the active editor's current buffer.
With no current editor, current_editor raises instead; that situation is
unreachable while the panel keeps its at-least-one-page invariant, and
the state is returned unchanged here. -/
def updatePreview (m : MainWindow) : MainWindow :=
  match m.panel.currentEditor with
  | some e => { m with preview := e.toHtml }
  | none => m

/-- Writing back the mutated buffer of the page at the current index
(the QTextEdit mutates in place; the functional model replaces it). -/
def setCurrentEditor (m : MainWindow) (e : Editor) : MainWindow :=
  { m with panel := { m.panel with editors := m.panel.editors.set m.panel.current.toNat e } }

/-- Common tail of the insertion operations (lines 848-850, 856-858,
880-886): take the active editor's cursor, insert the bitmap there, and
refresh the preview. -/
def insertActiveImage (m : MainWindow) (img : QImg) : MainWindow :=
  match m.panel.currentEditor with
  | none => m
  | some e => updatePreview (setCurrentEditor m (e.insertImage img))

/-- Python str.strip with no argument: whitespace removed from both
ends.  Implemented structurally so concrete instances compute inside the
kernel.  (Python also strips the vertical-tab and form-feed characters,
which never occur in the inputs considered.) -/
def pyStripList (l : List Char) : List Char :=
  ((l.dropWhile Char.isWhitespace).reverse.dropWhile Char.isWhitespace).reverse

def pyStrip (s : String) : String := String.mk (pyStripList s.data)

/-- MainWindow.insert_latex (lines 835-850).  dialogResult is none when
the dialog was cancelled, otherwise the raw text of the input field,
which get_latex strips.  render stands for _render_latex and returns the
bitmap or the exception it raised.  The result pairs the new state with
the warning message shown, if any: a render failure is caught and
surfaced as a QMessageBox warning, and the method returns with the
document untouched. -/
def insertLatexOp (m : MainWindow) (dialogResult : Option String)
    (render : String → Except Unit QImg) : MainWindow × Option String :=
  match dialogResult with
  | none => (m, none)
  | some raw =>
    let latex := pyStrip raw
    if latex = "" then (m, none)
    else
      match render latex with
      | .error _ => (m, some "Unable to render LaTeX formula.")
      | .ok img => (insertActiveImage m img, none)

/-- MainWindow.insert_diagram (lines 852-858): when the dialog is
accepted its canvas bitmap is inserted at the active editor's cursor and
the preview refreshed; otherwise nothing happens. -/
def insertDiagramOp (m : MainWindow) (accepted : Bool) (img : QImg) : MainWindow :=
  if accepted then insertActiveImage m img else m

def natOfDigits (l : List Char) : Nat := l.foldl (fun a c => a * 10 + (c.toNat - 48)) 0

def allDigits (l : List Char) : Bool := !l.isEmpty && l.all Char.isDigit

/-- Python int(text) as used by ImageInsertDialog.get_settings (lines
510-517): optional surrounding whitespace, an optional sign, then
decimal digits; anything else raises ValueError, which parse turns into
None.  (Digit-group underscores, which Python also accepts, are not
modelled.) -/
def pyInt (s : String) : Option Int :=
  match pyStripList s.data with
  | '+' :: r => if allDigits r then some ((natOfDigits r : Nat) : Int) else none
  | '-' :: r => if allDigits r then some (-((natOfDigits r : Nat) : Int)) else none
  | l => if allDigits l then some ((natOfDigits l : Nat) : Int) else none

/-- QImage.scaledToWidth: the width becomes w and the height is scaled
by the same factor; the integer expression rounds the exact rational
height w * img.h / img.w half-up, matching Qt's qRound.  A zero source
dimension never arises for a decodable image. -/
def scaledToWidth (img : QImg) (w : Nat) : QImg :=
  { w := w, h := (2 * (w * img.h) + img.w) / (2 * img.w), tag := img.tag }

/-- QImage.scaledToHeight, symmetric to scaledToWidth. -/
def scaledToHeight (img : QImg) (h : Nat) : QImg :=
  { w := (2 * (h * img.w) + img.h) / (2 * img.h), h := h, tag := img.tag }

/-- Python truthiness of the parsed optional dimensions: None and 0 are
falsy in the conditions of lines 873-877. -/
def truthy : Option Int → Bool
  | none => false
  | some n => n != 0

/-- The scaling branch of MainWindow.insert_image (lines 873-878): both
dimensions given scales to exactly those dimensions ignoring the aspect
ratio; exactly one given scales preserving it; neither given passes the
image through unscaled.  The claims only concern positive targets; toNat
clamps the (never exercised) negative ones. -/
def imageScale (img : QImg) (width height : Option Int) : QImg :=
  if truthy width && truthy height then
    { w := (width.getD 0).toNat, h := (height.getD 0).toNat, tag := img.tag }
  else if truthy width then scaledToWidth img (width.getD 0).toNat
  else if truthy height then scaledToHeight img (height.getD 0).toNat
  else img

/-- MainWindow.insert_image (lines 860-886): path is none when the file
dialog was cancelled; accepted reflects the settings dialog; widthText
and heightText are the raw field texts; src is the loaded image, none
when QImage(path).isNull().  The block alignment set on lines 881-883
affects paragraph formatting only, not the buffer content modelled
here. -/
def insertImageOp (m : MainWindow) (path : Option String) (accepted : Bool)
    (widthText heightText : String) (src : Option QImg) : MainWindow × Option String :=
  match path with
  | none => (m, none)
  | some _ =>
    if accepted = false then (m, none)
    else
      match src with
      | none => (m, some "Unable to load image.")
      | some img0 =>
          (insertActiveImage m (imageScale img0 (pyInt widthText) (pyInt heightText)), none)

/-- The user switching pages by selecting a different existing row: the
stack index follows the list row (line 548) and the stack's
currentChanged signal refreshes the preview (line 592).  Selecting the
already-current row changes no index and emits no signal. -/
def selectPageOp (m : MainWindow) (r : Int) : MainWindow :=
  if 0 ≤ r ∧ r < (m.panel.names.length : Int) ∧ r ≠ m.panel.current then
    updatePreview { m with panel := { m.panel with current := r } }
  else m

/-- The MainWindow at startup (lines 583-611): one empty page and the
static welcome markup in the preview pane. -/
def initMainWindow : MainWindow :=
  { panel := initPanel
    preview := "<h3>Live Preview</h3><p>Insert LaTeX, graphs, or images.</p>" }

/-- Claim C3: a formula-insertion request whose render step raises
leaves the state unchanged — the active page's buffer is identical to
its pre-request state, nothing partial is inserted — and the failure is
surfaced as a warning message while the document stays editable. -/
theorem latex_render_failure_leaves_buffer (m : MainWindow) (raw : String)
    (render : String → Except Unit QImg) (err : Unit)
    (h1 : render (pyStrip raw) = .error err) (h2 : pyStrip raw ≠ "") :
    insertLatexOp m (some raw) render = (m, some "Unable to render LaTeX formula.") ∧
      (insertLatexOp m (some raw) render).1.panel.currentEditor = m.panel.currentEditor := by
  have hmain : insertLatexOp m (some raw) render
      = (m, some "Unable to render LaTeX formula.") := by
    unfold insertLatexOp
    simp only []
    rw [if_neg h2, h1]
  exact ⟨hmain, by rw [hmain]⟩

theorem latex_render_failure_leaves_buffer_witness :
    insertLatexOp initMainWindow (some "x+") (fun _ => Except.error ())
        = (initMainWindow, some "Unable to render LaTeX formula.") ∧
      (insertLatexOp initMainWindow (some "x+") (fun _ => Except.error ())).1.panel.currentEditor
        = initMainWindow.panel.currentEditor :=
  latex_render_failure_leaves_buffer initMainWindow "x+" (fun _ => Except.error ()) ()
    rfl (by decide)

lemma listInsertAt_length {α : Type} :
    ∀ (n : Nat) (a : α) (l : List α), n ≤ l.length →
      (listInsertAt n a l).length = l.length + 1 := by
  intro n
  induction n with
  | zero => intro a l _; rfl
  | succ k ih =>
    intro a l h
    cases l with
    | nil => simp at h
    | cons b t =>
      simp only [listInsertAt, List.length_cons]
      rw [ih a t (by simpa using h)]

lemma listInsertAt_getElem?_self {α : Type} :
    ∀ (n : Nat) (a : α) (l : List α), n ≤ l.length →
      (listInsertAt n a l)[n]? = some a := by
  intro n
  induction n with
  | zero => intro a l _; simp [listInsertAt]
  | succ k ih =>
    intro a l h
    cases l with
    | nil => simp at h
    | cons b t =>
      simp only [listInsertAt, List.getElem?_cons_succ]
      exact ih a t (by simpa using h)

lemma listInsertAt_getElem?_lt {α : Type} :
    ∀ (n m : Nat) (a : α) (l : List α), m < n → n ≤ l.length →
      (listInsertAt n a l)[m]? = l[m]? := by
  intro n
  induction n with
  | zero => intro m a l hm _; omega
  | succ k ih =>
    intro m a l hm hn
    cases l with
    | nil => simp at hn
    | cons b t =>
      cases m with
      | zero => simp [listInsertAt]
      | succ j =>
        simp only [listInsertAt, List.getElem?_cons_succ]
        exact ih j a t (by omega) (by simpa using hn)

lemma currentEditor_eq (p : PagesPanel) (i : Nat) (hcur : p.current = (i : Int)) :
    p.currentEditor = p.editors[i]? := by
  unfold PagesPanel.currentEditor
  rw [hcur, if_pos (Int.natCast_nonneg i), Int.toNat_natCast]

lemma currentEditor_of_index (p : PagesPanel) (i : Nat) (e : Editor)
    (hcur : p.current = (i : Int)) (hed : p.editors[i]? = some e) :
    p.currentEditor = some e := by
  rw [currentEditor_eq p i hcur]
  exact hed

lemma updatePreview_panel (m : MainWindow) : (updatePreview m).panel = m.panel := by
  unfold updatePreview
  rcases h : m.panel.currentEditor with _ | e <;> rfl

lemma updatePreview_preview_of_some (m : MainWindow) (e : Editor)
    (h : m.panel.currentEditor = some e) : (updatePreview m).preview = e.toHtml := by
  unfold updatePreview
  rw [h]

lemma insertActiveImage_spec (m : MainWindow) (img : QImg) (i : Nat) (e : Editor)
    (hcur : m.panel.current = (i : Int)) (hed : m.panel.editors[i]? = some e) :
    (insertActiveImage m img).panel.current = (i : Int) ∧
    (insertActiveImage m img).panel.editors[i]? = some (e.insertImage img) ∧
    (insertActiveImage m img).panel.currentEditor = some (e.insertImage img) ∧
    (insertActiveImage m img).preview = (e.insertImage img).toHtml := by
  have hce : m.panel.currentEditor = some e := currentEditor_of_index m.panel i e hcur hed
  have hlt : i < m.panel.editors.length := by
    rcases List.getElem?_eq_some.mp hed with ⟨hl, _⟩
    exact hl
  have hset : (m.panel.editors.set i (e.insertImage img))[i]? = some (e.insertImage img) :=
    List.getElem?_set_eq_of_lt _ hlt
  have htn : m.panel.current.toNat = i := by
    rw [hcur]
    exact Int.toNat_natCast i
  have hIA : insertActiveImage m img = updatePreview (setCurrentEditor m (e.insertImage img)) := by
    unfold insertActiveImage
    rw [hce]
  have hpc : (setCurrentEditor m (e.insertImage img)).panel.current = m.panel.current := rfl
  have hpe : (setCurrentEditor m (e.insertImage img)).panel.editors
      = m.panel.editors.set i (e.insertImage img) := by
    show m.panel.editors.set m.panel.current.toNat (e.insertImage img)
        = m.panel.editors.set i (e.insertImage img)
    rw [htn]
  have hcur2 : (setCurrentEditor m (e.insertImage img)).panel.current = (i : Int) := by
    rw [hpc]
    exact hcur
  have hce' : (setCurrentEditor m (e.insertImage img)).panel.currentEditor
      = some (e.insertImage img) := by
    rw [currentEditor_eq _ i hcur2, hpe]
    exact hset
  rw [hIA]
  refine ⟨?_, ?_, ?_, updatePreview_preview_of_some _ _ hce'⟩
  · rw [updatePreview_panel]
    exact hcur2
  · rw [updatePreview_panel, hpe]
    exact hset
  · rw [updatePreview_panel]
    exact hce'

/-- Claim C9: a successful insertion places the artifact at the active
page's cursor and leaves the cursor immediately after it, and a second
insertion therefore lands strictly after the first in document order:
after two insertions the first artifact sits at the original cursor
index, the second at the next index, and the cursor two past. -/
theorem insertion_advances_cursor (m : MainWindow) (img1 img2 : QImg) (i : Nat) (e : Editor)
    (hcur : m.panel.current = (i : Int))
    (hed : m.panel.editors[i]? = some e)
    (hc : e.cursor ≤ e.buffer.length) :
    ∃ e1 e2 : Editor,
      (insertDiagramOp m true img1).panel.currentEditor = some e1 ∧
      e1.buffer[e.cursor]? = some (RichItem.image img1) ∧
      e1.cursor = e.cursor + 1 ∧
      (insertDiagramOp (insertDiagramOp m true img1) true img2).panel.currentEditor = some e2 ∧
      e2.buffer[e.cursor]? = some (RichItem.image img1) ∧
      e2.buffer[e.cursor + 1]? = some (RichItem.image img2) ∧
      e2.cursor = e.cursor + 2 ∧
      e.cursor < e.cursor + 1 := by
  have h1 := insertActiveImage_spec m img1 i e hcur hed
  have h2 := insertActiveImage_spec (insertActiveImage m img1) img2 i
    (e.insertImage img1) h1.1 h1.2.1
  have hcb : (e.insertImage img1).cursor = e.cursor + 1 := rfl
  have hlen1 : (e.insertImage img1).buffer.length = e.buffer.length + 1 :=
    listInsertAt_length e.cursor _ e.buffer hc
  refine ⟨e.insertImage img1, (e.insertImage img1).insertImage img2,
    ?_, ?_, rfl, ?_, ?_, ?_, rfl, by omega⟩
  · simpa [insertDiagramOp] using h1.2.2.1
  · exact listInsertAt_getElem?_self e.cursor _ e.buffer hc
  · simpa [insertDiagramOp] using h2.2.2.1
  · show (listInsertAt (e.insertImage img1).cursor (RichItem.image img2)
        (e.insertImage img1).buffer)[e.cursor]? = some (RichItem.image img1)
    rw [listInsertAt_getElem?_lt (e.insertImage img1).cursor e.cursor _
      (e.insertImage img1).buffer (by omega) (by omega)]
    exact listInsertAt_getElem?_self e.cursor _ e.buffer hc
  · show (listInsertAt (e.insertImage img1).cursor (RichItem.image img2)
        (e.insertImage img1).buffer)[e.cursor + 1]? = some (RichItem.image img2)
    rw [hcb]
    exact listInsertAt_getElem?_self (e.cursor + 1) _ (e.insertImage img1).buffer
      (by omega)

theorem insertion_advances_cursor_witness :
    ∃ e1 e2 : Editor,
      (insertDiagramOp initMainWindow true ⟨3, 4, 1⟩).panel.currentEditor = some e1 ∧
      e1.buffer[0]? = some (RichItem.image ⟨3, 4, 1⟩) ∧
      e1.cursor = 0 + 1 ∧
      (insertDiagramOp (insertDiagramOp initMainWindow true ⟨3, 4, 1⟩) true ⟨5, 6, 2⟩).panel.currentEditor = some e2 ∧
      e2.buffer[0]? = some (RichItem.image ⟨3, 4, 1⟩) ∧
      e2.buffer[0 + 1]? = some (RichItem.image ⟨5, 6, 2⟩) ∧
      e2.cursor = 0 + 2 ∧
      0 < 0 + 1 :=
  insertion_advances_cursor initMainWindow ⟨3, 4, 1⟩ ⟨5, 6, 2⟩ 0 Editor.empty
    (by decide) (by decide) (by decide)

/-- Application state including the LaTeX dialog's local widgets: the
formula input field and the dialog's own preview label
(LatexDialog, lines 251-357).  The dialog label is distinct from the
document preview pane. -/
structure App where
  main : MainWindow
  latexDraft : String
  latexDraftLabel : String
deriving DecidableEq, Repr

/-- Editing the formula text inside the LaTeX dialog before committing
(LatexDialog._update_preview, lines 339-354): only the dialog's input
field and its local preview label change; the document and the document
preview are untouched. -/
def latexDraftEditOp (a : App) (render : String → Except Unit QImg) (text : String) : App :=
  let label :=
    if pyStrip text = "" then "Preview"
    else
      match render (pyStrip text) with
      | .error _ => "Unable to render LaTeX formula."
      | .ok img => RichItem.html (RichItem.image img)
  { a with latexDraft := text, latexDraftLabel := label }

/-- The user-interface operations relevant to the preview contract. -/
inductive UiOp where
  | insertLatex (dialogResult : Option String)
  | insertDiagram (accepted : Bool) (img : QImg)
  | insertImage (path : Option String) (accepted : Bool)
      (widthText heightText : String) (src : Option QImg)
  | selectPage (r : Int)
  | latexDraftEdit (text : String)

def step (render : String → Except Unit QImg) (a : App) : UiOp → App
  | .insertLatex res => { a with main := (insertLatexOp a.main res render).1 }
  | .insertDiagram acc img => { a with main := insertDiagramOp a.main acc img }
  | .insertImage p acc wt ht src => { a with main := (insertImageOp a.main p acc wt ht src).1 }
  | .selectPage r => { a with main := selectPageOp a.main r }
  | .latexDraftEdit t => latexDraftEditOp a render t

def renderOk : Except Unit QImg → Bool
  | .ok _ => true
  | .error _ => false

/-- Whether the operation completes an insertion or an actual page
switch — exactly the situations the code follows with _update_preview
(lines 850, 858, 886, and the currentChanged connection on line 592). -/
def commits (render : String → Except Unit QImg) (a : App) : UiOp → Bool
  | .insertLatex none => false
  | .insertLatex (some raw) => (pyStrip raw != "") && renderOk (render (pyStrip raw))
  | .insertDiagram acc _ => acc
  | .insertImage none _ _ _ _ => false
  | .insertImage (some _) acc _ _ src => acc && src.isSome
  | .selectPage r =>
      decide (0 ≤ r) && decide (r < (a.main.panel.names.length : Int))
        && (r != a.main.panel.current)
  | .latexDraftEdit _ => false

lemma insertActiveImage_preview_eq (m : MainWindow) (i : Nat) (img : QImg)
    (hcur : m.panel.current = (i : Int)) (hlen : i < m.panel.editors.length) :
    ∃ e, (insertActiveImage m img).panel.currentEditor = some e ∧
      (insertActiveImage m img).preview = e.toHtml := by
  have he : m.panel.editors[i]? = some (m.panel.editors[i]) := List.getElem?_eq_getElem hlen
  have spec := insertActiveImage_spec m img i _ hcur he
  exact ⟨_, spec.2.2.1, spec.2.2.2⟩

/-- Claim C10: after every committed insertion and after every actual
page switch the document preview equals the wholesale re-serialization
of the then-active page's current buffer; uncommitted formula-dialog
edits change only the dialog's own widgets and never the document or its
preview. -/
theorem preview_recomputed (render : String → Except Unit QImg) (a : App) (op : UiOp)
    (i : Nat)
    (hcur : a.main.panel.current = (i : Int))
    (hlen : i < a.main.panel.editors.length)
    (hnames : a.main.panel.names.length = a.main.panel.editors.length) :
    (commits render a op = true →
      ∃ e, (step render a op).main.panel.currentEditor = some e ∧
        (step render a op).main.preview = e.toHtml) ∧
    (∀ t, (step render a (UiOp.latexDraftEdit t)).main = a.main) := by
  constructor
  · intro h
    cases op with
    | insertLatex res =>
      cases res with
      | none => simp [commits] at h
      | some raw =>
        simp only [commits, Bool.and_eq_true, bne_iff_ne, ne_eq] at h
        rcases h with ⟨hne, hok⟩
        cases hr : render (pyStrip raw) with
        | error err => rw [hr] at hok; simp [renderOk] at hok
        | ok img =>
          have hstep : (step render a (UiOp.insertLatex (some raw))).main
              = insertActiveImage a.main img := by
            show (insertLatexOp a.main (some raw) render).1 = insertActiveImage a.main img
            unfold insertLatexOp
            simp only []
            rw [if_neg hne, hr]
          rw [hstep]
          exact insertActiveImage_preview_eq a.main i img hcur hlen
    | insertDiagram acc img =>
      simp only [commits] at h
      have hstep : (step render a (UiOp.insertDiagram acc img)).main
          = insertActiveImage a.main img := by
        show insertDiagramOp a.main acc img = insertActiveImage a.main img
        rw [h]
        rfl
      rw [hstep]
      exact insertActiveImage_preview_eq a.main i img hcur hlen
    | insertImage p acc wt ht src =>
      cases p with
      | none => simp [commits] at h
      | some path =>
        simp only [commits, Bool.and_eq_true] at h
        rcases h with ⟨hacc, hsome⟩
        cases src with
        | none => simp at hsome
        | some img0 =>
          have hstep : (step render a (UiOp.insertImage (some path) acc wt ht (some img0))).main
              = insertActiveImage a.main (imageScale img0 (pyInt wt) (pyInt ht)) := by
            show (insertImageOp a.main (some path) acc wt ht (some img0)).1 = _
            unfold insertImageOp
            rw [hacc]
            rfl
          rw [hstep]
          exact insertActiveImage_preview_eq a.main i _ hcur hlen
    | selectPage r =>
      simp only [commits, Bool.and_eq_true, decide_eq_true_eq, bne_iff_ne, ne_eq] at h
      rcases h with ⟨⟨h0, hr⟩, hne⟩
      have hcond : 0 ≤ r ∧ r < (a.main.panel.names.length : Int) ∧ r ≠ a.main.panel.current :=
        ⟨h0, hr, hne⟩
      have hstep : (step render a (UiOp.selectPage r)).main
          = updatePreview { a.main with panel := { a.main.panel with current := r } } := by
        show selectPageOp a.main r = _
        unfold selectPageOp
        rw [if_pos hcond]
      rw [hstep]
      have hj : ({ a.main.panel with current := r } : PagesPanel).current = ((r.toNat : Nat) : Int) := by
        show r = ((r.toNat : Nat) : Int)
        exact (Int.toNat_of_nonneg h0).symm
      have hjl : r.toNat < a.main.panel.editors.length := by
        rw [← hnames]
        omega
      have hce : ({ a.main.panel with current := r } : PagesPanel).currentEditor
          = some (a.main.panel.editors[r.toNat]) := by
        rw [currentEditor_eq _ r.toNat hj]
        exact List.getElem?_eq_getElem hjl
      refine ⟨a.main.panel.editors[r.toNat], ?_, ?_⟩
      · rw [updatePreview_panel]
        exact hce
      · exact updatePreview_preview_of_some _ _ hce
    | latexDraftEdit t => simp [commits] at h
  · intro t
    rfl

def initApp : App := ⟨initMainWindow, "", "Preview"⟩

theorem preview_recomputed_witness :
    (commits (fun _ => Except.error ()) initApp (UiOp.insertDiagram true ⟨2, 2, 0⟩) = true →
      ∃ e, (step (fun _ => Except.error ()) initApp
            (UiOp.insertDiagram true ⟨2, 2, 0⟩)).main.panel.currentEditor = some e ∧
        (step (fun _ => Except.error ()) initApp
            (UiOp.insertDiagram true ⟨2, 2, 0⟩)).main.preview = e.toHtml) ∧
    (∀ t, (step (fun _ => Except.error ()) initApp (UiOp.latexDraftEdit t)).main
        = initApp.main) :=
  preview_recomputed (fun _ => Except.error ()) initApp (UiOp.insertDiagram true ⟨2, 2, 0⟩)
    0 (by decide) (by decide) (by decide)

/-- Claim C8: with both target dimensions given (positive), the output
has exactly those dimensions and the aspect ratio is ignored; with
exactly one given the image is scaled to that dimension preserving the
aspect ratio — targetWidth 100 on a 200x400 source yields 100x200, with
the aspect ratio preserved exactly there; with neither given the image
passes through unscaled. -/
theorem image_transform_dimensions (img : QImg) (w h : Int)
    (hw : 0 < w) (hh : 0 < h) :
    imageScale img (some w) (some h) = ⟨w.toNat, h.toNat, img.tag⟩ ∧
    imageScale img (some w) none = scaledToWidth img w.toNat ∧
    imageScale img none (some h) = scaledToHeight img h.toNat ∧
    imageScale img none none = img ∧
    imageScale ⟨200, 400, 0⟩ (some 100) none = ⟨100, 200, 0⟩ ∧
    (imageScale ⟨200, 400, 0⟩ (some 100) none).w * 400
      = (imageScale ⟨200, 400, 0⟩ (some 100) none).h * 200 := by
  have htw : truthy (some w) = true := by
    simp only [truthy, bne_iff_ne, ne_eq]
    omega
  have hth : truthy (some h) = true := by
    simp only [truthy, bne_iff_ne, ne_eq]
    omega
  have hw100 : imageScale ⟨200, 400, 0⟩ (some 100) none = ⟨100, 200, 0⟩ := by decide
  refine ⟨?_, ?_, ?_, rfl, hw100, by rw [hw100]; decide⟩
  · unfold imageScale
    rw [htw, hth]
    rfl
  · unfold imageScale
    rw [htw]
    rfl
  · unfold imageScale
    rw [hth]
    rfl

theorem image_transform_dimensions_witness :
    imageScale ⟨200, 400, 0⟩ (some 100) (some 50) = ⟨(100 : Int).toNat, (50 : Int).toNat, 0⟩ ∧
    imageScale ⟨200, 400, 0⟩ (some 100) none = scaledToWidth ⟨200, 400, 0⟩ (100 : Int).toNat ∧
    imageScale ⟨200, 400, 0⟩ none (some 50) = scaledToHeight ⟨200, 400, 0⟩ (50 : Int).toNat ∧
    imageScale ⟨200, 400, 0⟩ none none = ⟨200, 400, 0⟩ ∧
    imageScale ⟨200, 400, 0⟩ (some 100) none = ⟨100, 200, 0⟩ ∧
    (imageScale ⟨200, 400, 0⟩ (some 100) none).w * 400
      = (imageScale ⟨200, 400, 0⟩ (some 100) none).h * 200 :=
  image_transform_dimensions ⟨200, 400, 0⟩ 100 50 (by decide) (by decide)

def exceptEqDec {ε α : Type} [DecidableEq ε] [DecidableEq α] : DecidableEq (Except ε α)
  | .error a, .error b =>
      if h : a = b then isTrue (by rw [h]) else isFalse (by intro hc; injection hc; contradiction)
  | .error _, .ok _ => isFalse (by intro hc; cases hc)
  | .ok _, .error _ => isFalse (by intro hc; cases hc)
  | .ok a, .ok b =>
      if h : a = b then isTrue (by rw [h]) else isFalse (by intro hc; injection hc; contradiction)

instance {ε α : Type} [DecidableEq ε] [DecidableEq α] : DecidableEq (Except ε α) :=
  exceptEqDec

/-- Python str.split(sep) for a one-character separator: empty pieces
preserved, the whole string returned when the separator is absent. -/
def splitCharAux (sep : Char) : List Char → List Char → List (List Char)
  | [], acc => [acc.reverse]
  | c :: rest, acc =>
      if c = sep then acc.reverse :: splitCharAux sep rest []
      else splitCharAux sep rest (c :: acc)

def pySplit (sep : Char) (s : String) : List String :=
  (splitCharAux sep s.data []).map String.mk

/-- Python str.replace(c, "") for a one-character pattern. -/
def removeChar (c : Char) (s : String) : String :=
  String.mk (s.data.filter (fun d => d != c))

/-- Python str.split(sep, maxsplit=1): the part before the first
occurrence and the rest; none when the separator does not occur. -/
def splitOnceAux (sep : Char) : List Char → Option (List Char × List Char)
  | [] => none
  | c :: rest =>
      if c = sep then some ([], rest)
      else (splitOnceAux sep rest).map (fun pr => (c :: pr.1, pr.2))

/-- Digit-and-point part of a float literal, returned as an exact
numerator/denominator pair: digits, digits.digits, digits., or
.digits. -/
def parseMantissaND (l : List Char) : Option (Int × Nat) :=
  match splitOnceAux '.' l with
  | none => if allDigits l then some (((natOfDigits l : Nat) : Int), 1) else none
  | some (a, b) =>
      if a.isEmpty && b.isEmpty then none
      else if a.all Char.isDigit && b.all Char.isDigit then
        some ((((natOfDigits a * 10 ^ b.length + natOfDigits b : Nat)) : Int), 10 ^ b.length)
      else none

/-- The exponent of a float literal: optional sign, then digits. -/
def parseExpInt (l : List Char) : Option Int :=
  match l with
  | '+' :: r => if allDigits r then some (((natOfDigits r : Nat) : Int)) else none
  | '-' :: r => if allDigits r then some (-((natOfDigits r : Nat) : Int)) else none
  | _ => if allDigits l then some (((natOfDigits l : Nat) : Int)) else none

/-- Split a float literal at its exponent marker e or E, if any. -/
def splitExp (l : List Char) : Option (List Char × List Char) :=
  match splitOnceAux 'e' l with
  | some pr => some pr
  | none => splitOnceAux 'E' l

/-- Apply a decimal exponent to a numerator/denominator pair. -/
def applyExp (nd : Int × Nat) (e : Int) : Int × Nat :=
  if 0 ≤ e then (nd.1 * ((10 ^ e.toNat : Nat) : Int), nd.2)
  else (nd.1, nd.2 * 10 ^ (-e).toNat)

def parseUnsignedFloat (l : List Char) : Option ℚ :=
  match splitExp l with
  | none => (parseMantissaND l).map (fun nd => Rat.divInt nd.1 ((nd.2 : Nat) : Int))
  | some (a, b) =>
      match parseMantissaND a, parseExpInt b with
      | some nd, some e =>
          some (Rat.divInt (applyExp nd e).1 (((applyExp nd e).2 : Nat) : Int))
      | _, _ => none

/-- Python float(text) on finite decimal literals: optional surrounding
whitespace and sign, a digit/point mantissa, an optional e/E exponent.
(inf, nan and digit-group underscores, which Python also accepts, are
not modelled; none occur in the inputs the claims mention.) -/
def pyFloat (s : String) : Option ℚ :=
  match pyStripList s.data with
  | '+' :: r => parseUnsignedFloat r
  | '-' :: r => (parseUnsignedFloat r).map (fun q => -q)
  | l => parseUnsignedFloat l

/-- One loop iteration of GraphDialog.add_points (lines 454-459): strip
parens from the pair, skip it when empty, split on the first comma —
Python's split(",", maxsplit=1) followed by unpacking into two names
raises ValueError when there is no comma — and parse the two floats.
ok none is a skipped iteration, error the caught exception. -/
def parsePair (pair : String) : Except Unit (Option (ℚ × ℚ)) :=
  let cleaned := pyStrip (removeChar ')' (removeChar '(' pair))
  if cleaned = "" then .ok none
  else
    match splitOnceAux ',' cleaned.data with
    | none => .error ()
    | some (a, b) =>
        match pyFloat (pyStrip (String.mk a)), pyFloat (pyStrip (String.mk b)) with
        | some x, some y => .ok (some (x, y))
        | _, _ => .error ()

/-- The candidate pair strings of add_points (lines 451-453): primary
grammar — strip all parens, split on semicolons, keep the nonempty
stripped pieces; fallback grammar only when that yields nothing — split
the raw text on closing parens. -/
def pointCandidates (text : String) : List String :=
  let g1 := ((pySplit ';' (removeChar ')' (removeChar '(' text))).map pyStrip).filter
    (fun p => p != "")
  if g1 = [] then
    ((pySplit ')' text).map pyStrip).filter (fun p => p != "")
  else g1

/-- The loop of add_points (lines 450-459): the first raised exception
aborts the whole block, skipped iterations contribute nothing. -/
def collectPoints : List String → Except Unit (List (ℚ × ℚ))
  | [] => .ok []
  | p :: rest =>
      match parsePair p with
      | .error e => .error e
      | .ok none => collectPoints rest
      | .ok (some pt) => (collectPoints rest).map (fun l => pt :: l)

inductive PointsOutcome where
  | noop
  | warned
  | plotted (pts : List (ℚ × ℚ))
deriving DecidableEq, Repr

/-- GraphDialog.add_points (lines 445-468): empty input returns
silently; any exception inside the try block is caught and surfaced as
the "Invalid points format." warning; an empty point list returns
silently; otherwise the points are scattered onto the canvas. -/
def addPoints (text0 : String) : PointsOutcome :=
  let text := pyStrip text0
  if text = "" then .noop
  else
    match collectPoints (pointCandidates text) with
    | .error _ => .warned
    | .ok pts => if pts = [] then .noop else .plotted pts

/-- Claim C6 fails as stated: for the input "(1,2);abc" a pair can be
parsed — the first candidate "1,2" parses to (1, 2) — yet add_points
fails with the format warning, because any single failing pair aborts
the whole parse; so failure is not equivalent to no pair being
parseable. -/
theorem point_parse_error_despite_parseable_pair :
    addPoints "(1,2);abc" = PointsOutcome.warned ∧
    pointCandidates "(1,2);abc" = ["1,2", "abc"] ∧
    parsePair "1,2" = Except.ok (some ((1 : ℚ), (2 : ℚ))) := by
  refine ⟨by decide, by decide, ?_⟩
  have hd : parsePair "1,2" = Except.ok (some (Rat.divInt 1 1, Rat.divInt 2 1)) := by decide
  rw [hd]
  norm_num [Rat.divInt_eq_div]

lemma collectPoints_error_iff (l : List String) :
    collectPoints l = Except.error () ↔ ∃ p ∈ l, parsePair p = Except.error () := by
  induction l with
  | nil => simp [collectPoints]
  | cons p rest ih =>
    cases hp : parsePair p with
    | error e =>
      cases e
      simp [collectPoints, hp]
    | ok o =>
      cases o with
      | none => simp [collectPoints, hp, ih]
      | some pt =>
        cases hrest : collectPoints rest with
        | error e2 =>
          cases e2
          simp only [collectPoints, hp, hrest, Except.map]
          simp [ih.mp hrest]
        | ok pts =>
          simp only [collectPoints, hp, hrest, Except.map]
          constructor
          · intro hcontr
            exact absurd hcontr (by simp)
          · intro hex
            rcases hex with ⟨q, hq, hqe⟩
            rcases List.mem_cons.mp hq with hq1 | hq2
            · rw [hq1] at hqe
              rw [hqe] at hp
              cases hp
            · have : collectPoints rest = Except.error () := ih.mpr ⟨q, hq2, hqe⟩
              rw [this] at hrest
              cases hrest

/-- Claim C6 amended: "(1,2); (2,3.5)" parses to exactly (1, 2) and
(2, 3.5) and "abc" fails with the format warning, but the failure
condition is: the stripped text is nonempty and some candidate pair —
from the primary grammar or, when it yields no candidates, the
closing-paren fallback — fails to parse as two comma-separated floats.
A single failing pair aborts the parse even when other pairs are
parseable, and a nonempty input whose candidates parse to no points at
all (for example "()") returns silently with no error. -/
theorem point_parse_spec (text : String) :
    addPoints "(1,2); (2,3.5)"
        = PointsOutcome.plotted [((1 : ℚ), (2 : ℚ)), ((2 : ℚ), (7 / 2 : ℚ))] ∧
    addPoints "abc" = PointsOutcome.warned ∧
    addPoints "()" = PointsOutcome.noop ∧
    (addPoints text = PointsOutcome.warned ↔
      pyStrip text ≠ "" ∧ ∃ p ∈ pointCandidates (pyStrip text), parsePair p = Except.error ()) := by
  refine ⟨?_, by decide, by decide, ?_⟩
  · have hd : addPoints "(1,2); (2,3.5)"
        = PointsOutcome.plotted
            [(Rat.divInt 1 1, Rat.divInt 2 1), (Rat.divInt 2 1, Rat.divInt 35 10)] := by
      decide
    rw [hd]
    norm_num [Rat.divInt_eq_div]
  · unfold addPoints
    by_cases hs : pyStrip text = ""
    · simp [hs]
    · rw [if_neg hs]
      cases hcol : collectPoints (pointCandidates (pyStrip text)) with
      | error e =>
        cases e
        constructor
        · intro _
          exact ⟨hs, (collectPoints_error_iff _).mp hcol⟩
        · intro _
          rfl
      | ok pts =>
        constructor
        · intro hcontr
          by_cases hp : pts = [] <;> simp [hp] at hcontr
        · intro hex
          have : collectPoints (pointCandidates (pyStrip text)) = Except.error () :=
            (collectPoints_error_iff _).mpr hex.2
          rw [this] at hcol
          cases hcol

/-- numpy.linspace(a, b, n) (GraphDialog.add_function, line 432): n
evenly spaced samples from a to b, endpoints included, the k-th sample
being a + k * (b - a) / (n - 1). -/
def linspace (a b : ℚ) (n : Nat) : List ℚ :=
  (List.range n).map (fun (k : Nat) => a + (k : ℚ) * ((b - a) / (((n - 1 : Nat)) : ℚ)))

/-- The x-samples used for every plotted function:
np.linspace(-10, 10, 400). -/
def graphSamples : List ℚ := linspace (-10) 10 400

/-- Claim C7: every function expression is sampled at 400 (at least
300) evenly spaced x-values across the window [-10, 10]: consecutive
samples are 20/399 apart, the first is -10 and the last 10.  For sin
the sampled curve passes through (0, 0) within sampling tolerance: the
sample at x = 10/399 lies within one sample spacing of x = 0 and its
sine within one spacing of y = 0. -/
theorem graph_sampling :
    graphSamples.length = 400 ∧
    300 ≤ graphSamples.length ∧
    graphSamples.head? = some (-10) ∧
    graphSamples.getLast? = some 10 ∧
    List.Chain' (fun a b => b - a = 20 / 399) graphSamples ∧
    ∃ q ∈ graphSamples, |((q : ℚ) : ℝ)| ≤ 20 / 399 ∧ |Real.sin ((q : ℚ) : ℝ)| ≤ 20 / 399 := by
  have hlen : graphSamples.length = 400 := by
    simp [graphSamples, linspace]
  refine ⟨hlen, by omega, ?_, ?_, ?_, ?_⟩
  · rw [List.head?_eq_getElem?]
    unfold graphSamples linspace
    rw [List.getElem?_map, List.getElem?_range (by norm_num : (0 : Nat) < 400)]
    simp only [Option.map_some']
    norm_num
  · rw [List.getLast?_eq_getElem?, hlen]
    unfold graphSamples linspace
    rw [List.getElem?_map, List.getElem?_range (by norm_num : (399 : Nat) < 400)]
    simp only [Option.map_some']
    norm_num
  · unfold graphSamples linspace
    rw [List.chain'_map, show (400 : Nat) = 399 + 1 from rfl, List.chain'_range_succ]
    intro m hm
    push_cast
    ring_nf
  · refine ⟨10 / 399, ?_, ?_, ?_⟩
    · unfold graphSamples linspace
      refine List.mem_map.mpr ⟨200, List.mem_range.mpr (by norm_num), ?_⟩
      push_cast
      norm_num
    · rw [show (((10 / 399 : ℚ)) : ℝ) = 10 / 399 by push_cast; ring]
      rw [abs_of_nonneg (by norm_num)]
      norm_num
    · rw [show (((10 / 399 : ℚ)) : ℝ) = 10 / 399 by push_cast; ring]
      calc |Real.sin (10 / 399)| ≤ |(10 / 399 : ℝ)| := Real.abs_sin_le_abs
        _ ≤ 20 / 399 := by
            rw [abs_of_nonneg (by norm_num)]
            norm_num

/-- Abstract syntax of the arithmetic fragment of the expressions typed
into the graph function field: numeric literals, addition, subtraction
and multiplication, bare name references, and calls of a named function
with one argument.  (Division, power, attribute access and the
short-circuit operators are outside the fragment; their extra failure
modes are caught or raised exactly like the modelled ones, and no claim
depends on them.) -/
inductive PyOp where
  | add
  | sub
  | mul
deriving DecidableEq, Repr

inductive PyExpr where
  | num (q : ℚ)
  | name (s : String)
  | binop (op : PyOp) (a b : PyExpr)
  | call (f : String) (arg : PyExpr)

/-- The names an expression references. -/
def exprNames : PyExpr → List String
  | .num _ => []
  | .name s => [s]
  | .binop _ a b => exprNames a ++ exprNames b
  | .call f arg => f :: exprNames arg

/-- The run-time values an expression of the fragment can take, by
kind: a numpy array (the sampled x, or anything elementwise derived
from it), a numeric scalar, one of the bound numpy functions, the numpy
module bound to np, an injected builtin function, and the unspecified
ordinary object a builtin call returns. -/
inductive PyVal where
  | arr
  | scalar
  | fn (name : String)
  | module
  | builtin (name : String)
  | pyobj
deriving DecidableEq, Repr

/-- CPython injects the builtins module under the __builtins__ key
whenever the globals dict passed to eval lacks that key — as the dict
literal on lines 434-435 does — so every builtin name also resolves
inside the expression.  A few relevant builtins stand for all of
them. -/
def injectedBuiltinNames : List String :=
  ["__import__", "open", "getattr", "globals", "print"]

/-- The evaluation environment of eval in GraphDialog.add_function
(lines 434-435): the nine entries of the globals dict literal plus the
injected builtins. -/
def evalEnv : List (String × PyVal) :=
  [("x", .arr), ("np", .module),
   ("sin", .fn "sin"), ("cos", .fn "cos"), ("tan", .fn "tan"),
   ("sqrt", .fn "sqrt"), ("log", .fn "log"), ("exp", .fn "exp"), ("abs", .fn "abs")]
  ++ injectedBuiltinNames.map (fun s => (s, .builtin s))

/-- All names that resolve during evaluation of a graph expression. -/
def availableNames : List String := evalEnv.map Prod.fst

/-- The vocabulary the specification allows: the variable and the safe
functions (trig, sqrt, log, exp, abs); arithmetic needs no names. -/
def safeVocabulary : List String :=
  ["x", "sin", "cos", "tan", "sqrt", "log", "exp", "abs"]

inductive PyErr where
  | nameError
  | typeError
deriving DecidableEq, Repr

def PyVal.numeric : PyVal → Bool
  | .arr => true
  | .scalar => true
  | _ => false

/-- CPython evaluation of the fragment over the eval environment:
subexpressions evaluate left to right; an unbound name raises
NameError; add/sub/mul need numeric operands — numpy broadcasts
array/scalar mixes elementwise, so the result is an array when either
side is — and raise TypeError otherwise; a call evaluates the callee
name, then the argument, then raises TypeError when the callee is not
callable (an array, a scalar, or the module); the bound numpy functions
map arrays to arrays and scalars to scalars and reject non-numeric
arguments; a call of an injected builtin returns an ordinary object
(failures specific to one builtin's semantics are outside the
fragment). -/
def evalPy : PyExpr → Except PyErr PyVal
  | .num _ => .ok .scalar
  | .name s =>
      match evalEnv.lookup s with
      | some v => .ok v
      | none => .error .nameError
  | .binop _ a b =>
      match evalPy a with
      | .error e => .error e
      | .ok va =>
          match evalPy b with
          | .error e => .error e
          | .ok vb =>
              if va.numeric && vb.numeric then
                .ok (if va = .arr || vb = .arr then .arr else .scalar)
              else .error .typeError
  | .call f arg =>
      match evalEnv.lookup f with
      | none => .error .nameError
      | some fv =>
          match evalPy arg with
          | .error e => .error e
          | .ok av =>
              match fv with
              | .fn _ => if av.numeric then .ok av else .error .typeError
              | .builtin _ => .ok .pyobj
              | _ => .error .typeError

inductive FnOutcome where
  | skipped
  | warned
  | plotted
  | uncaught
deriving DecidableEq, Repr

/-- The plot step of add_function (lines 439-443), which runs OUTSIDE
the try block: axis.plot(x, y) draws the curve when y is an array
conforming to the 400 x-samples, and raises an uncaught ValueError for
any other value (a scalar, a function, the module, another object
cannot be broadcast against the 400 samples); an exception here is not
caught by the handler on line 436. -/
def plotOutcome : PyVal → FnOutcome
  | .arr => .plotted
  | _ => .uncaught

/-- GraphDialog.add_function (lines 428-443), abstracted over the parse
of the entered text (parsed is none when eval raises SyntaxError):
empty text returns silently; any exception raised while parsing or
evaluating the expression — inside the try block — is caught and
surfaced as the "Invalid function expression." warning; a successful
evaluation proceeds to the plot step outside the block. -/
def addFunction (exprText : String) (parsed : Option PyExpr) : FnOutcome :=
  if pyStrip exprText = "" then .skipped
  else
    match parsed with
    | none => .warned
    | some e =>
        match evalPy e with
        | .error _ => .warned
        | .ok v => plotOutcome v

/-- Claim C4 fails on the code: the expression consisting of the bare
name np — a name outside the claimed safe vocabulary — evaluates
without any error, because the eval globals bind np to the entire numpy
module; no ExpressionError (warning) is raised — the eventual failure
is an uncaught ValueError in the plot call outside the handler, not the
claimed error.  Likewise the injected builtin __import__ resolves to a
value, so a general-purpose evaluation capability is reachable from the
expression. -/
theorem unsupported_name_evaluates :
    evalPy (PyExpr.name "np") = Except.ok PyVal.module ∧
    addFunction "np" (some (PyExpr.name "np")) = FnOutcome.uncaught ∧
    FnOutcome.uncaught ≠ FnOutcome.warned ∧
    safeVocabulary.contains "np" = false ∧
    evalPy (PyExpr.name "__import__") = Except.ok (PyVal.builtin "__import__") := by
  refine ⟨by decide, by decide, by decide, by decide, by decide⟩

lemma lookup_mem_keys {β : Type} :
    ∀ (l : List (String × β)) (s : String) (v : β),
      l.lookup s = some v → s ∈ l.map Prod.fst := by
  intro l
  induction l with
  | nil => intro s v h; cases h
  | cons p rest ih =>
    intro s v h
    rcases p with ⟨a, b⟩
    rw [List.lookup] at h
    by_cases hq : s == a
    · rw [List.map_cons, List.mem_cons]
      exact Or.inl (by simpa using hq)
    · rw [Bool.not_eq_true] at hq
      rw [hq] at h
      exact List.mem_cons_of_mem _ (ih s v h)

lemma evalPy_ok_names :
    ∀ (e : PyExpr) (v : PyVal), evalPy e = Except.ok v →
      ∀ s ∈ exprNames e, s ∈ availableNames := by
  intro e
  induction e with
  | num q => intro v _ s hs; simp [exprNames] at hs
  | name s0 =>
    intro v h s hs
    rw [show exprNames (PyExpr.name s0) = [s0] from rfl, List.mem_singleton] at hs
    subst hs
    unfold evalPy at h
    cases hl : evalEnv.lookup s with
    | some v0 => exact lookup_mem_keys evalEnv s v0 hl
    | none => rw [hl] at h; cases h
  | binop op a b iha ihb =>
    intro v h s hs
    unfold evalPy at h
    cases hea : evalPy a with
    | error e1 => rw [hea] at h; cases h
    | ok va =>
      rw [hea] at h
      cases heb : evalPy b with
      | error e2 => rw [heb] at h; cases h
      | ok vb =>
        rw [show exprNames (PyExpr.binop op a b) = exprNames a ++ exprNames b from rfl,
          List.mem_append] at hs
        rcases hs with hs | hs
        · exact iha va hea s hs
        · exact ihb vb heb s hs
  | call f arg ih =>
    intro v h s hs
    unfold evalPy at h
    cases hf : evalEnv.lookup f with
    | none => rw [hf] at h; cases h
    | some fv =>
      rw [hf] at h
      cases hea : evalPy arg with
      | error e1 => rw [hea] at h; cases h
      | ok av =>
        rw [show exprNames (PyExpr.call f arg) = f :: exprNames arg from rfl,
          List.mem_cons] at hs
        rcases hs with hs | hs
        · subst hs; exact lookup_mem_keys evalEnv s fv hf
        · exact ih av hea s hs

/-- Claim C4 amended: graph expressions are evaluated by Python's
general-purpose eval over the nine-name globals — including np, the
whole numpy module — plus the implicitly injected builtins.  A
successful evaluation uses only names of that environment; an
expression using any name outside it raises, is caught, and is surfaced
as the warning; the concrete safe expression sin(x) evaluates to an
array and plots; but the environment strictly exceeds the claimed safe
vocabulary (np and the builtins resolve), so evaluation is not
restricted to that vocabulary. -/
theorem expression_vocabulary (e : PyExpr) (v : PyVal) (exprText : String)
    (hne : pyStrip exprText ≠ "")
    (hok : evalPy e = Except.ok v) :
    (∀ s ∈ exprNames e, s ∈ availableNames) ∧
    (∀ e2 : PyExpr, (∃ s ∈ exprNames e2, s ∉ availableNames) →
      addFunction exprText (some e2) = FnOutcome.warned) ∧
    addFunction "sin(x)" (some (PyExpr.call "sin" (PyExpr.name "x"))) = FnOutcome.plotted ∧
    availableNames.contains "np" = true ∧
    safeVocabulary.contains "np" = false := by
  refine ⟨evalPy_ok_names e v hok, ?_, by decide, by decide, by decide⟩
  intro e2 hex
  rcases hex with ⟨s, hs, hns⟩
  cases hev : evalPy e2 with
  | ok v2 => exact absurd (evalPy_ok_names e2 v2 hev s hs) hns
  | error err =>
    unfold addFunction
    rw [if_neg hne]
    simp [hev]

theorem expression_vocabulary_witness :
    (∀ s ∈ exprNames (PyExpr.call "sin" (PyExpr.name "x")), s ∈ availableNames) ∧
    (∀ e2 : PyExpr, (∃ s ∈ exprNames e2, s ∉ availableNames) →
      addFunction "sin(x)" (some e2) = FnOutcome.warned) ∧
    addFunction "sin(x)" (some (PyExpr.call "sin" (PyExpr.name "x"))) = FnOutcome.plotted ∧
    availableNames.contains "np" = true ∧
    safeVocabulary.contains "np" = false :=
  expression_vocabulary (PyExpr.call "sin" (PyExpr.name "x")) PyVal.arr "sin(x)"
    (by decide) (by decide)

end BestMath
